import Mathlib

/-!
Shallow embedding of the EduLearn dashboard aggregation logic.

The repository's aggregators are a few dozen lines of TypeScript arithmetic
over already-fetched arrays:
- `QuizAnalytics.fetchQuizAnalytics` (per-quiz attempt statistics),
- `QuizHistory.fetchQuizHistory` (per-user attempt history and rollup),
- `UserStatistics.fetchUserStatistics` (role counts, time windows, monthly growth),
- `ContentManagement.fetchAllContent` / `handleSaveEdit` / `handleDelete`
  (merge of four content tables, edit routing).

Modelling conventions:
- JavaScript numbers are modelled exactly: integers from the database are `ℤ`,
  intermediate quotients are exact rationals, and the special values produced by
  unguarded division (`NaN`, `±Infinity`) are modelled by the `JsNum` type.
  Binary-floating-point rounding error is idealized away.
- `Math.round` is half-up rounding toward positive infinity, `⌊x + 1/2⌋`.
- JavaScript `Date` objects are modelled by their epoch-millisecond value `ℤ`,
  with local time identified with UTC and no daylight-saving transitions.
  Civil-calendar conversions use floor-division Gregorian arithmetic.
- Asynchronous fetches are modelled by explicit outcome values; the ambient
  clock (`new Date()`) is an explicit argument.
-/

/-- JavaScript `Math.round`: half-up (ties toward positive infinity). -/
def jsRound (q : ℚ) : ℤ := ⌊q + 1/2⌋

/-- A JavaScript number: either a finite value (modelled exactly as a rational)
or one of the non-finite values `NaN`, `Infinity`, `-Infinity`. -/
inductive JsNum where
  | num (q : ℚ)
  | nan
  | posInf
  | negInf
deriving DecidableEq

/-- JavaScript addition on `JsNum` (`NaN` absorbs; `Infinity + -Infinity = NaN`). -/
def JsNum.add : JsNum → JsNum → JsNum
  | nan, _ => nan
  | _, nan => nan
  | posInf, negInf => nan
  | negInf, posInf => nan
  | posInf, _ => posInf
  | _, posInf => posInf
  | negInf, _ => negInf
  | _, negInf => negInf
  | num a, num b => num (a + b)

/-- JavaScript multiplication on `JsNum` (`NaN` absorbs; `±Infinity * 0 = NaN`). -/
def JsNum.mul : JsNum → JsNum → JsNum
  | nan, _ => nan
  | _, nan => nan
  | num a, num b => num (a * b)
  | posInf, num b => if b = 0 then nan else if 0 < b then posInf else negInf
  | num a, posInf => if a = 0 then nan else if 0 < a then posInf else negInf
  | negInf, num b => if b = 0 then nan else if 0 < b then negInf else posInf
  | num a, negInf => if a = 0 then nan else if 0 < a then negInf else posInf
  | posInf, posInf => posInf
  | negInf, negInf => posInf
  | posInf, negInf => negInf
  | negInf, posInf => negInf

/-- JavaScript division of a `JsNum` by a (nonnegative) integer count, as used
for the `sum / length` mean computations. Division by `0` follows JS semantics. -/
def JsNum.divNat (x : JsNum) (n : ℕ) : JsNum :=
  match x, n with
  | nan, _ => nan
  | num a, 0 => if a = 0 then nan else if 0 < a then posInf else negInf
  | posInf, _ => posInf
  | negInf, _ => negInf
  | num a, k + 1 => num (a / ((k : ℚ) + 1))

/-- JavaScript `Math.round` lifted to `JsNum` (`NaN`/`±Infinity` are preserved). -/
def JsNum.round : JsNum → JsNum
  | num q => num ((jsRound q : ℤ) : ℚ)
  | nan => nan
  | posInf => posInf
  | negInf => negInf

/-- JavaScript `x >= c` for a `JsNum` against a finite constant:
false for `NaN` (every comparison with `NaN` is false). -/
def JsNum.ge (x : JsNum) (c : ℚ) : Bool :=
  match x with
  | num q => decide (c ≤ q)
  | posInf => true
  | negInf => false
  | nan => false

/-- JavaScript division of two finite numbers, producing a `JsNum`:
`0 / 0 = NaN`, `a / 0 = ±Infinity` for `a ≠ 0`, exact rational otherwise. -/
def jsDiv (a b : ℚ) : JsNum :=
  if b = 0 then (if a = 0 then .nan else if 0 < a then .posInf else .negInf)
  else .num (a / b)

/-! ### JavaScript `Date` model

A `Date` is its epoch-millisecond value (`ℤ`), local time = UTC, no DST.
`civilFromDays`/`daysFromCivil` are the standard floor-division Gregorian
conversions between days-since-1970-01-01 and civil `(year, month 1..12, day)`.
-/

/-- Milliseconds per day. -/
def msPerDay : ℤ := 86400000

/-- Civil `(year, month 1..12, day 1..31)` of a days-since-epoch count. -/
def civilFromDays (z : ℤ) : ℤ × ℤ × ℤ :=
  let z' := z + 719468
  let era := z' / 146097
  let doe := z' % 146097
  let yoe := (doe - doe / 1460 + doe / 36524 - doe / 146096) / 365
  let y := yoe + era * 400
  let doy := doe - (365 * yoe + yoe / 4 - yoe / 100)
  let mp := (5 * doy + 2) / 153
  let d := doy - (153 * mp + 2) / 5 + 1
  let m := mp + (if mp < 10 then 3 else -9)
  (y + (if m ≤ 2 then 1 else 0), m, d)

/-- Days since epoch of a civil date (month `1..12`; the day may lie outside
`1..31`, shifting into neighbouring months as JS date normalization does). -/
def daysFromCivil (y m d : ℤ) : ℤ :=
  let y' := y - (if m ≤ 2 then 1 else 0)
  let era := y' / 400
  let yoe := y' - era * 400
  let doy := (153 * (m + (if m > 2 then -3 else 9)) + 2) / 5 + d - 1
  let doe := yoe * 365 + yoe / 4 - yoe / 100 + doy
  era * 146097 + doe - 719468

/-- Days-since-epoch of an instant (floor division). -/
def dayOfMs (t : ℤ) : ℤ := t / msPerDay

/-- Milliseconds elapsed since local midnight of an instant. -/
def todOfMs (t : ℤ) : ℤ := t % msPerDay

/-- JS `Date.prototype.getFullYear`. -/
def getFullYear (t : ℤ) : ℤ := (civilFromDays (dayOfMs t)).1

/-- JS `Date.prototype.getMonth` (0-based: January = 0). -/
def getMonth (t : ℤ) : ℤ := (civilFromDays (dayOfMs t)).2.1 - 1

/-- JS `Date.prototype.getDate` (day of month, 1-based). -/
def getDate (t : ℤ) : ℤ := (civilFromDays (dayOfMs t)).2.2

/-- JS `Date.prototype.getDay` (day of week, Sunday = 0).
1970-01-01 (day 0) was a Thursday (= 4). -/
def getDay (t : ℤ) : ℤ := (dayOfMs t + 4) % 7

/-- JS `Date.prototype.setDate d`: replaces the day-of-month by `d`, keeping the
time-of-day; since day-of-month is affine in the day count within a fixed
month, this shifts the instant by `d - getDate t` whole days. -/
def setDate (t d : ℤ) : ℤ := t + (d - getDate t) * msPerDay

/-- JS `new Date(y, m, d)` at local midnight: month `m` is 0-based and may lie
outside `0..11` (normalized into the year), day `d` may lie outside the month. -/
def dateYMD (y m d : ℤ) : ℤ :=
  let mAbs := y * 12 + m
  (daysFromCivil (mAbs / 12) (mAbs % 12 + 1) d) * msPerDay

/-! ### QuizAnalytics (admin quiz analytics component)

Embeds the aggregation inside `fetchQuizAnalytics`: the fetched rows are
quizzes with nested `quiz_attempts` (joined with `profiles.full_name`).
-/

/-- A `quiz_attempts` row as selected by the analytics query, with the joined
`profiles.full_name` (absent join gives `none`). -/
structure AnalyticsAttempt where
  id : String
  user_id : String
  score : ℤ
  total_questions : ℤ
  completed_at : ℤ
  profiles_full_name : Option String
deriving DecidableEq

/-- A `quizzes` row with its nested attempts, as selected by the analytics query. -/
structure QuizRow where
  id : String
  title : String
  quiz_attempts : List AnalyticsAttempt
deriving DecidableEq

/-- Per-student entry of the analytics view-model. -/
structure StudentEntry where
  id : String
  name : String
  score : ℤ
  percentage : JsNum
  completedAt : ℤ
deriving DecidableEq

/-- The `QuizAnalytics` view-model row. `averageScore` is computed from integer
scores only and is always finite, hence plain `ℚ`; `completionRate` and the
per-student percentages involve division by `total_questions` and are `JsNum`. -/
structure QuizAnalyticsRow where
  quizId : String
  quizTitle : String
  totalAttempts : ℕ
  averageScore : ℚ
  completionRate : JsNum
  students : List StudentEntry
deriving DecidableEq

/-- The aggregation of `fetchQuizAnalytics`: maps each quiz row to its
analytics row (`averageScore = Math.round(mean-of-scores * 10) / 10`,
`completionRate = Math.round(mean of score/total_questions*100)`). -/
def fetchQuizAnalytics (quizzes : List QuizRow) : List QuizAnalyticsRow :=
  quizzes.map fun quiz =>
    let attempts := quiz.quiz_attempts
    let totalAttempts : ℕ := attempts.length
    let averageScore : ℚ :=
      if 0 < totalAttempts
      then ((attempts.foldl (fun (sum : ℤ) attempt => sum + attempt.score) 0 : ℤ) : ℚ) / (totalAttempts : ℚ)
      else 0
    let averagePercentage : JsNum :=
      if 0 < totalAttempts
      then (attempts.foldl
              (fun (sum : JsNum) attempt =>
                sum.add ((jsDiv attempt.score attempt.total_questions).mul (.num 100)))
              (.num 0)).divNat totalAttempts
      else .num 0
    let students := attempts.map fun attempt =>
      { id := attempt.user_id
        name := attempt.profiles_full_name.getD "Unknown"
        score := attempt.score
        percentage := ((jsDiv attempt.score attempt.total_questions).mul (.num 100)).round
        completedAt := attempt.completed_at : StudentEntry }
    { quizId := quiz.id
      quizTitle := quiz.title
      totalAttempts := totalAttempts
      averageScore := ((jsRound (averageScore * 10) : ℤ) : ℚ) / 10
      completionRate := averagePercentage.round
      students := students }

/-! ### QuizHistory (student quiz history component) -/

/-- A `quiz_attempts` row as selected by the history query for one user, with
the joined `quizzes.title` (absent join gives `none`). -/
structure HistAttemptRow where
  id : String
  score : ℤ
  total_questions : ℤ
  completed_at : ℤ
  quiz_id : String
  quizzes_title : Option String
deriving DecidableEq

/-- The per-attempt `QuizHistory` view-model row. -/
structure QuizHistoryRow where
  id : String
  quizTitle : String
  score : ℤ
  totalQuestions : ℤ
  percentage : JsNum
  completedAt : ℤ
  isPassed : Bool
deriving DecidableEq

/-- The `QuizStats` rollup of the history component. -/
structure QuizStats where
  totalQuizzes : ℕ
  averageScore : JsNum
  passedQuizzes : ℕ
  totalScore : JsNum
deriving DecidableEq

/-- The aggregation of `fetchQuizHistory`: per-attempt derived rows
(`percentage = Math.round(score/total_questions*100)`, `isPassed = percentage >= 70`)
and the rollup stats. -/
def fetchQuizHistory (attempts : List HistAttemptRow) : List QuizHistoryRow × QuizStats :=
  let historyData := attempts.map fun attempt =>
    let percentage := ((jsDiv attempt.score attempt.total_questions).mul (.num 100)).round
    { id := attempt.id
      quizTitle := attempt.quizzes_title.getD "Unknown Quiz"
      score := attempt.score
      totalQuestions := attempt.total_questions
      percentage := percentage
      completedAt := attempt.completed_at
      isPassed := percentage.ge 70 : QuizHistoryRow }
  let totalQuizzes : ℕ := historyData.length
  let totalScore := historyData.foldl (fun (sum : JsNum) quiz => sum.add quiz.percentage) (.num 0)
  let averageScore := if 0 < totalQuizzes then (totalScore.divNat totalQuizzes).round else .num 0
  let passedQuizzes := (historyData.filter fun quiz => quiz.isPassed).length
  (historyData, { totalQuizzes := totalQuizzes
                  averageScore := averageScore
                  passedQuizzes := passedQuizzes
                  totalScore := totalScore })

/-- The success-rate figure rendered by the `QuizHistory` component:
`totalQuizzes > 0 ? Math.round((passedQuizzes / totalQuizzes) * 100) : 0`. -/
def successRate (stats : QuizStats) : ℤ :=
  if 0 < stats.totalQuizzes
  then jsRound ((stats.passedQuizzes : ℚ) / (stats.totalQuizzes : ℚ) * 100)
  else 0

/-! ### ContentManagement (admin content table)

Embeds `fetchAllContent` (four concurrent table fetches joined by
`Promise.all`, merged and sorted), the edit-dialog initialization of
`handleEdit`, and the update routing of `handleSaveEdit`.
-/

/-- The content variant tag of a `ContentItem` (`'book' | 'video' | 'course' | 'quiz'`). -/
inductive ContentType where
  | book
  | video
  | course
  | quiz
deriving DecidableEq

/-- A row of one of the four content tables. `owner` models the column the
component reads as the owner reference: `uploaded_by` for `books`/`videos`,
`created_by` for `courses`/`quizzes`. -/
structure TableRow where
  id : String
  title : String
  description : Option String
  subject : Option String
  created_at : ℤ
  owner : Option String
deriving DecidableEq

/-- The normalized `ContentItem` view-model of the content table. -/
structure ContentItem where
  id : String
  type : ContentType
  title : String
  description : Option String
  subject : Option String
  createdAt : ℤ
  uploadedBy : Option String
deriving DecidableEq

/-- The per-table mapping of `fetchAllContent` onto `ContentItem`. -/
def toContentItem (t : ContentType) (r : TableRow) : ContentItem :=
  { id := r.id
    type := t
    title := r.title
    description := r.description
    subject := r.subject
    createdAt := r.created_at
    uploadedBy := r.owner }

/-- The sort comparator of `fetchAllContent`:
`(a, b) => new Date(b.createdAt).getTime() - new Date(a.createdAt).getTime()`,
i.e. `a` may precede `b` iff `b.createdAt <= a.createdAt` (descending). -/
def contentLe (a b : ContentItem) : Bool := decide (b.createdAt ≤ a.createdAt)

/-- The concatenation of the four mapped collections, in source order
(books, videos, courses, quizzes). -/
def allContentItems (books videos courses quizzes : List TableRow) : List ContentItem :=
  books.map (toContentItem .book) ++ videos.map (toContentItem .video)
    ++ courses.map (toContentItem .course) ++ quizzes.map (toContentItem .quiz)

/-- The merge of `fetchAllContent`: concatenate the four mapped collections and
sort descending by creation timestamp (JS `Array.prototype.sort` is stable). -/
def mergeAllContent (books videos courses quizzes : List TableRow) : List ContentItem :=
  (allContentItems books videos courses quizzes).mergeSort contentLe

/-- Outcome of one table fetch: the promise either resolves with
`{ data: rows | null }` (a query error resolves with `data = null`), or rejects
(a thrown error). -/
inductive FetchOutcome where
  | resolved (data : Option (List TableRow))
  | rejected
deriving DecidableEq

/-- A resolved outcome yields its data; `Promise.all` turns a rejection into an
exception. -/
def FetchOutcome.toResult : FetchOutcome → Except Unit (Option (List TableRow))
  | .resolved d => .ok d
  | .rejected => .error ()

/-- `Promise.all` over the four table fetches: produces all four results, or
the first rejection as an exception. -/
def promiseAll4 (b v c q : FetchOutcome) :
    Except Unit (Option (List TableRow) × Option (List TableRow) ×
      Option (List TableRow) × Option (List TableRow)) := do
  let bd ← b.toResult
  let vd ← v.toResult
  let cd ← c.toResult
  let qd ← q.toResult
  pure (bd, vd, cd, qd)

/-- `fetchAllContent`: await the four fetches; on success merge with
`data || []` per table and store the result; a rejection lands in the `catch`
block, which leaves the content state unchanged and shows an error toast.
Returns (new content state if stored, whether the error toast was shown). -/
def fetchAllContent (b v c q : FetchOutcome) : Option (List ContentItem) × Bool :=
  match promiseAll4 b v c q with
  | .error _ => (none, true)
  | .ok (bd, vd, cd, qd) =>
      (some (mergeAllContent (bd.getD []) (vd.getD []) (cd.getD []) (qd.getD [])), false)

/-- The edit-dialog form state (all three fields are plain strings). -/
structure EditForm where
  title : String
  description : String
  subject : String
deriving DecidableEq

/-- `handleEdit`: initializes the edit form from the selected item, replacing
an absent description or subject by the empty string (`item.description || ''`). -/
def handleEditForm (item : ContentItem) : EditForm :=
  { title := item.title
    description := item.description.getD ""
    subject := item.subject.getD "" }

/-- The `updateData` write of `handleSaveEdit` applied to one row: sets exactly
`title`, `description` and `subject` (the latter two to present strings). -/
def updateRow (form : EditForm) (r : TableRow) : TableRow :=
  { r with title := form.title, description := some form.description, subject := some form.subject }

/-- The table update `update(updateData).eq('id', itemId)`: rewrites every row
whose `id` matches, leaving all other rows unchanged. -/
def applyUpdate (form : EditForm) (itemId : String) (rows : List TableRow) : List TableRow :=
  rows.map fun r => if r.id = itemId then updateRow form r else r

/-- The four content tables of the external store. -/
structure ContentDB where
  books : List TableRow
  videos : List TableRow
  courses : List TableRow
  quizzes : List TableRow
deriving DecidableEq

/-- `handleSaveEdit`: routes the update to the table selected by the item's
type tag (the `switch` on `editingItem.type`). -/
def handleSaveEdit (db : ContentDB) (itemType : ContentType) (itemId : String)
    (form : EditForm) : ContentDB :=
  match itemType with
  | .book => { db with books := applyUpdate form itemId db.books }
  | .video => { db with videos := applyUpdate form itemId db.videos }
  | .course => { db with courses := applyUpdate form itemId db.courses }
  | .quiz => { db with quizzes := applyUpdate form itemId db.quizzes }

/-! ### UserStatistics (admin user statistics component) -/

/-- A `profiles` row as selected by the statistics query. -/
structure ProfileRow where
  id : String
  full_name : Option String
  email : String
  role : String
  created_at : ℤ
deriving DecidableEq

/-- A recent-user entry of the statistics view-model. -/
structure RecentUser where
  id : String
  name : String
  email : String
  role : String
  createdAt : ℤ
deriving DecidableEq

/-- One monthly-growth bucket. The rendered label is the localized "Mon YYYY"
of the bucket's month; it is modelled by the absolute month index
`year * 12 + month` (0-based month), which the label is a faithful rendering of. -/
structure MonthBucket where
  monthIndex : ℤ
  count : ℕ
deriving DecidableEq

/-- The `UserStats` view-model. -/
structure UserStats where
  totalUsers : ℕ
  totalStudents : ℕ
  totalAdmins : ℕ
  newUsersThisMonth : ℕ
  newUsersThisWeek : ℕ
  recentUsers : List RecentUser
  monthlyGrowth : List MonthBucket
deriving DecidableEq

/-- The aggregation of `fetchUserStatistics`, with the ambient clock passed
explicitly. Note the source's `now.setDate(now.getDate() - now.getDay())`
MUTATES `now`: the monthly-growth loop below therefore reads the year/month of
the mutated date (`mutatedNow`), not of the original clock value. -/
def fetchUserStatistics (allUsers : List ProfileRow) (clock : ℤ) : UserStats :=
  let now := clock
  let startOfMonth := dateYMD (getFullYear now) (getMonth now) 1
  let mutatedNow := setDate now (getDate now - getDay now)
  let startOfWeek := mutatedNow
  let totalUsers : ℕ := allUsers.length
  let totalStudents : ℕ := (allUsers.filter fun user => user.role == "student").length
  let totalAdmins : ℕ := (allUsers.filter fun user => user.role == "admin").length
  let newUsersThisMonth : ℕ :=
    (allUsers.filter fun user => decide (startOfMonth ≤ user.created_at)).length
  let newUsersThisWeek : ℕ :=
    (allUsers.filter fun user => decide (startOfWeek ≤ user.created_at)).length
  let recentUsers : List RecentUser := (allUsers.take 10).map fun user =>
    { id := user.id
      name := user.full_name.getD "Unknown"
      email := user.email
      role := user.role
      createdAt := user.created_at }
  let monthlyGrowth : List MonthBucket := (List.range 6).map fun k =>
    let i : ℤ := 5 - (k : ℤ)
    let date := dateYMD (getFullYear mutatedNow) (getMonth mutatedNow - i) 1
    let nextMonth := dateYMD (getFullYear mutatedNow) (getMonth mutatedNow - i + 1) 1
    let count : ℕ :=
      (allUsers.filter fun user =>
        decide (date ≤ user.created_at ∧ user.created_at < nextMonth)).length
    { monthIndex := getFullYear mutatedNow * 12 + getMonth mutatedNow - i
      count := count }
  { totalUsers := totalUsers
    totalStudents := totalStudents
    totalAdmins := totalAdmins
    newUsersThisMonth := newUsersThisMonth
    newUsersThisWeek := newUsersThisWeek
    recentUsers := recentUsers
    monthlyGrowth := monthlyGrowth }

/-! ### Example inputs used by the concrete test vectors of the spec -/

/-- Spec example: attempt 7/10 (boundary pass). -/
def exHist7 : HistAttemptRow :=
  { id := "h1", score := 7, total_questions := 10, completed_at := 1700000000000,
    quiz_id := "q1", quizzes_title := some "Algebra Basics" }

/-- Spec example: attempt 69/100 (just below the threshold). -/
def exHist69 : HistAttemptRow :=
  { id := "h2", score := 69, total_questions := 100, completed_at := 1700000100000,
    quiz_id := "q2", quizzes_title := none }

/-- Degenerate attempt with `total_questions = 0` (unguarded division). -/
def exZero : HistAttemptRow :=
  { id := "h0", score := 0, total_questions := 0, completed_at := 1700000200000,
    quiz_id := "q3", quizzes_title := some "Broken" }

/-- Three attempts of one user, exactly one passing (80, 10, 20 percent). -/
def exThree : List HistAttemptRow :=
  [{ id := "h1", score := 8, total_questions := 10, completed_at := 3000,
     quiz_id := "q1", quizzes_title := some "A" },
   { id := "h2", score := 1, total_questions := 10, completed_at := 2000,
     quiz_id := "q2", quizzes_title := some "B" },
   { id := "h3", score := 2, total_questions := 10, completed_at := 1000,
     quiz_id := "q3", quizzes_title := some "C" }]

/-- Spec example: one quiz with attempts 8/10 and 6/10. -/
def exQuiz : QuizRow :=
  { id := "quiz-1", title := "Fractions", quiz_attempts :=
    [{ id := "a1", user_id := "s1", score := 8, total_questions := 10,
       completed_at := 4000, profiles_full_name := some "Alice" },
     { id := "a2", user_id := "s2", score := 6, total_questions := 10,
       completed_at := 5000, profiles_full_name := none }] }

/-- 2025-04-02 12:00 local time (a Wednesday): the clock value of the
calendar counterexamples. -/
def nowApr2 : ℤ := 1743595200000

/-- A user registered 2025-04-01 00:00 local (inside the current month). -/
def aprilUser : ProfileRow :=
  { id := "u-apr", full_name := some "April", email := "april@x", role := "student",
    created_at := 1743465600000 }

/-- A user registered 2025-03-30 00:00 local, the midnight of the most recent
Sunday before `nowApr2`. -/
def sundayUser : ProfileRow :=
  { id := "u-sun", full_name := some "Sunny", email := "sunny@x", role := "student",
    created_at := 1743292800000 }

/-! ### Helper lemmas -/

/-- JS addition of two finite values is rational addition. -/
theorem JsNum.add_num (a b : ℚ) : (JsNum.num a).add (.num b) = .num (a + b) := rfl

/-- Folding JS addition over elements whose values are all finite adds the
corresponding rationals. -/
theorem foldl_jsAdd_num {α : Type} (g : α → JsNum) (f : α → ℚ) :
    ∀ l : List α, (∀ a ∈ l, g a = .num (f a)) →
      ∀ q0 : ℚ, l.foldl (fun (s : JsNum) a => s.add (g a)) (.num q0)
        = .num (q0 + (l.map f).sum) := by
  intro l
  induction l with
  | nil => intro _ q0; simp
  | cons a l ih =>
      intro h q0
      have ha := h a (List.mem_cons_self a l)
      simp only [List.foldl_cons, ha, JsNum.add_num, List.map_cons, List.sum_cons]
      rw [ih (fun x hx => h x (List.mem_cons_of_mem a hx)) (q0 + f a), add_assoc]

/-- Folding integer score addition is summation. -/
theorem foldl_score_sum (l : List AnalyticsAttempt) :
    ∀ s0 : ℤ, l.foldl (fun (sum : ℤ) attempt => sum + attempt.score) s0
      = s0 + (l.map fun a => a.score).sum := by
  induction l with
  | nil => intro s0; simp
  | cons a l ih =>
      intro s0
      simp only [List.foldl_cons, List.map_cons, List.sum_cons]
      rw [ih (s0 + a.score), add_assoc]

/-- The per-attempt percentage `Math.round(score/total*100)` is the finite
number `jsRound (score/total*100)` whenever `total_questions` is positive. -/
theorem percentage_num (s t : ℤ) (h : 0 < t) :
    ((jsDiv (s : ℚ) (t : ℚ)).mul (.num 100)).round
      = .num ((jsRound ((s : ℚ) / (t : ℚ) * 100) : ℤ) : ℚ) := by
  have ht : (t : ℚ) ≠ 0 := Int.cast_ne_zero.mpr (by omega)
  simp [jsDiv, ht, JsNum.mul, JsNum.round]

/-- `x >= 70` on a finite rounded percentage is the integer comparison. -/
theorem ge70_num (k : ℤ) : JsNum.ge (.num ((k : ℤ) : ℚ)) 70 = decide (70 ≤ k) := by
  simp only [JsNum.ge, decide_eq_decide]
  norm_cast

/-- C2 helper: the derived history rows, pointwise. -/
theorem fetchQuizHistory_rows (attempts : List HistAttemptRow)
    (h : ∀ a ∈ attempts, 0 < a.total_questions) :
    ((fetchQuizHistory attempts).1.map fun r => r.percentage)
        = attempts.map (fun a => .num ((jsRound ((a.score : ℚ) / (a.total_questions : ℚ) * 100) : ℤ) : ℚ))
      ∧ ((fetchQuizHistory attempts).1.map fun r => r.isPassed)
        = attempts.map (fun a => decide (70 ≤ jsRound ((a.score : ℚ) / (a.total_questions : ℚ) * 100))) := by
  constructor
  · simp only [fetchQuizHistory, List.map_map]
    refine List.map_congr_left fun a ha => ?_
    simpa using percentage_num a.score a.total_questions (h a ha)
  · simp only [fetchQuizHistory, List.map_map]
    refine List.map_congr_left fun a ha => ?_
    have := percentage_num a.score a.total_questions (h a ha)
    simp only [Function.comp]
    rw [show (((jsDiv (a.score : ℚ) (a.total_questions : ℚ)).mul (.num 100)).round : JsNum)
        = .num ((jsRound ((a.score : ℚ) / (a.total_questions : ℚ) * 100) : ℤ) : ℚ) from this]
    exact ge70_num _

/-! ### Claim theorems -/

/-- C2: for every attempt with `total_questions > 0`, `fetchQuizHistory` derives
`percentage = round(score/total_questions*100)` (half-up) and
`isPassed = (percentage >= 70)` with the fixed inclusive threshold 70; in
particular 7/10 gives percentage 70 and passes, 69/100 gives 69 and fails. -/
theorem fetchQuizHistory_percentage_pass :
    (∀ attempts : List HistAttemptRow, (∀ a ∈ attempts, 0 < a.total_questions) →
      ((fetchQuizHistory attempts).1.map fun r => r.percentage)
          = attempts.map (fun a =>
              .num ((jsRound ((a.score : ℚ) / (a.total_questions : ℚ) * 100) : ℤ) : ℚ))
        ∧ ((fetchQuizHistory attempts).1.map fun r => r.isPassed)
          = attempts.map (fun a =>
              decide (70 ≤ jsRound ((a.score : ℚ) / (a.total_questions : ℚ) * 100))))
    ∧ ((fetchQuizHistory [exHist7]).1.map fun r => (r.percentage, r.isPassed))
        = [(.num 70, true)]
    ∧ ((fetchQuizHistory [exHist69]).1.map fun r => (r.percentage, r.isPassed))
        = [(.num 69, false)] := by
  refine ⟨fetchQuizHistory_rows, ?_, ?_⟩
  · have h1 : jsRound (70 : ℚ) = 70 := by norm_num [jsRound]
    norm_num [fetchQuizHistory, exHist7, jsDiv, JsNum.mul, JsNum.round, JsNum.ge, h1]
  · have h2 : jsRound (69 : ℚ) = 69 := by norm_num [jsRound]
    norm_num [fetchQuizHistory, exHist69, jsDiv, JsNum.mul, JsNum.round, JsNum.ge, h2]

/-- Witness for C2 at the concrete attempt 7/10. -/
theorem fetchQuizHistory_percentage_pass_witness :
    (∀ a ∈ [exHist7], 0 < a.total_questions)
    ∧ ((fetchQuizHistory [exHist7]).1.map fun r => r.percentage)
        = [exHist7].map (fun a =>
            .num ((jsRound ((a.score : ℚ) / (a.total_questions : ℚ) * 100) : ℤ) : ℚ)) :=
  ⟨by decide, (fetchQuizHistory_percentage_pass.1 [exHist7] (by decide)).1⟩

/-- The full rollup of `fetchQuizHistory` under the data-model invariant
`total_questions > 0`: attempt count, integer-rounded mean of percentages,
pass count, and the rendered success rate (note the `Math.round`). -/
theorem fetchQuizHistory_stats_spec (attempts : List HistAttemptRow)
    (h : ∀ a ∈ attempts, 0 < a.total_questions) :
    (fetchQuizHistory attempts).2.totalQuizzes = attempts.length
    ∧ (fetchQuizHistory attempts).2.averageScore
        = .num (if attempts.length = 0 then 0 else
            ((jsRound ((attempts.map fun a =>
                ((jsRound ((a.score : ℚ) / (a.total_questions : ℚ) * 100) : ℤ) : ℚ)).sum
              / (attempts.length : ℚ)) : ℤ) : ℚ))
    ∧ (fetchQuizHistory attempts).2.passedQuizzes
        = (attempts.filter fun a =>
            decide (70 ≤ jsRound ((a.score : ℚ) / (a.total_questions : ℚ) * 100))).length
    ∧ successRate (fetchQuizHistory attempts).2
        = (if attempts.length = 0 then 0 else
            jsRound ((((attempts.filter fun a =>
                decide (70 ≤ jsRound ((a.score : ℚ) / (a.total_questions : ℚ) * 100))).length : ℚ)
              / (attempts.length : ℚ) * 100))) := by
  have hsum : (fetchQuizHistory attempts).2.totalScore
      = .num ((attempts.map fun a =>
          ((jsRound ((a.score : ℚ) / (a.total_questions : ℚ) * 100) : ℤ) : ℚ)).sum) := by
    have := foldl_jsAdd_num
      (g := fun a : HistAttemptRow =>
        ((jsDiv (a.score : ℚ) (a.total_questions : ℚ)).mul (.num 100)).round)
      (f := fun a : HistAttemptRow =>
        ((jsRound ((a.score : ℚ) / (a.total_questions : ℚ) * 100) : ℤ) : ℚ))
      attempts (fun a ha => percentage_num a.score a.total_questions (h a ha)) 0
    simpa [fetchQuizHistory, List.foldl_map] using this
  have hlen : (fetchQuizHistory attempts).2.totalQuizzes = attempts.length := by
    simp [fetchQuizHistory]
  have hpassed : (fetchQuizHistory attempts).2.passedQuizzes
      = (attempts.filter fun a =>
          decide (70 ≤ jsRound ((a.score : ℚ) / (a.total_questions : ℚ) * 100))).length := by
    simp only [fetchQuizHistory, List.filter_map, List.length_map]
    congr 1
    refine List.filter_congr fun a ha => ?_
    simp only [Function.comp]
    rw [percentage_num a.score a.total_questions (h a ha), ge70_num]
  have havg : (fetchQuizHistory attempts).2.averageScore
      = .num (if attempts.length = 0 then 0 else
          ((jsRound ((attempts.map fun a =>
              ((jsRound ((a.score : ℚ) / (a.total_questions : ℚ) * 100) : ℤ) : ℚ)).sum
            / (attempts.length : ℚ)) : ℤ) : ℚ)) := by
    by_cases hn : attempts.length = 0
    · simp [fetchQuizHistory, List.length_eq_zero.mp hn, hn]
    · obtain ⟨k, hk⟩ := Nat.exists_eq_succ_of_ne_zero hn
      have hav : (fetchQuizHistory attempts).2.averageScore
          = ((fetchQuizHistory attempts).2.totalScore.divNat
              (fetchQuizHistory attempts).2.totalQuizzes).round := by
        simp only [fetchQuizHistory]
        rw [if_pos]
        simp only [List.length_map]
        omega
      rw [hav, hsum, hlen, hk, if_neg (Nat.succ_ne_zero k)]
      simp only [JsNum.divNat, JsNum.round, JsNum.num.injEq]
      norm_cast
  refine ⟨hlen, havg, hpassed, ?_⟩
  rw [successRate, hlen, hpassed]
  by_cases hn : attempts.length = 0
  · rw [if_neg (by omega), if_pos hn]
  · rw [if_pos (by omega), if_neg hn]

/-- C9: the division by `total_questions` is unguarded: an attempt with
`score = 0, total_questions = 0` yields `percentage = NaN`, `isPassed = false`,
still counts toward `totalQuizzes`, and the NaN propagates into the rollup
`averageScore`; under the precondition `total_questions > 0` on every attempt,
all derived percentages and the rollup average are finite. -/
theorem fetchQuizHistory_divzero_nan :
    (((fetchQuizHistory [exZero]).1.map fun r => (r.percentage, r.isPassed))
        = [(.nan, false)])
    ∧ (fetchQuizHistory [exZero]).2.totalQuizzes = 1
    ∧ (fetchQuizHistory [exZero]).2.averageScore = .nan
    ∧ (∀ attempts : List HistAttemptRow, (∀ a ∈ attempts, 0 < a.total_questions) →
        (∀ r ∈ (fetchQuizHistory attempts).1, ∃ q : ℚ, r.percentage = .num q)
        ∧ ∃ q : ℚ, (fetchQuizHistory attempts).2.averageScore = .num q) := by
  refine ⟨?_, rfl, ?_, ?_⟩
  · simp [fetchQuizHistory, exZero, jsDiv, JsNum.mul, JsNum.round, JsNum.ge]
  · simp [fetchQuizHistory, exZero, jsDiv, JsNum.mul, JsNum.round, JsNum.add, JsNum.divNat]
  · intro attempts h
    constructor
    · intro r hr
      simp only [fetchQuizHistory, List.mem_map] at hr
      obtain ⟨a, ha, rfl⟩ := hr
      exact ⟨_, percentage_num a.score a.total_questions (h a ha)⟩
    · exact ⟨_, (fetchQuizHistory_stats_spec attempts h).2.1⟩

/-- Witness for C9's universal finiteness part at a concrete attempt list. -/
theorem fetchQuizHistory_divzero_nan_witness :
    (∀ a ∈ [exHist7], 0 < a.total_questions)
    ∧ ∃ q : ℚ, (fetchQuizHistory [exHist7]).2.averageScore = .num q :=
  ⟨by decide, (fetchQuizHistory_divzero_nan.2.2.2 [exHist7] (by decide)).2⟩

/-- C5 counterexample: for three attempts with exactly one passed, the rendered
success rate is the rounded value 33, which differs from the exact
`passedQuizzes/totalQuizzes*100 = 100/3` asserted by the claim. -/
theorem successRate_rounds_counterexample :
    (fetchQuizHistory exThree).2.totalQuizzes = 3
    ∧ (fetchQuizHistory exThree).2.passedQuizzes = 1
    ∧ successRate (fetchQuizHistory exThree).2 = 33
    ∧ ((fetchQuizHistory exThree).2.passedQuizzes : ℚ)
        / ((fetchQuizHistory exThree).2.totalQuizzes : ℚ) * 100 ≠ 33 := by
  obtain ⟨hlen, havg, hpassed, hrate⟩ := fetchQuizHistory_stats_spec exThree (by decide)
  have hfilter : (exThree.filter fun a =>
      decide (70 ≤ jsRound ((a.score : ℚ) / (a.total_questions : ℚ) * 100))).length = 1 := by
    have e1 : decide ((70 : ℤ) ≤ jsRound (((8 : ℤ) : ℚ) / ((10 : ℤ) : ℚ) * 100)) = true := by
      simp only [decide_eq_true_eq]
      norm_num [jsRound]
    have e2 : decide ((70 : ℤ) ≤ jsRound (((1 : ℤ) : ℚ) / ((10 : ℤ) : ℚ) * 100)) = false := by
      simp only [decide_eq_false_iff_not]
      norm_num [jsRound]
    have e3 : decide ((70 : ℤ) ≤ jsRound (((2 : ℤ) : ℚ) / ((10 : ℤ) : ℚ) * 100)) = false := by
      simp only [decide_eq_false_iff_not]
      norm_num [jsRound]
    simp only [exThree, List.filter, e1, e2, e3, List.length_cons, List.length_nil]
  refine ⟨by rw [hlen]; rfl, by rw [hpassed, hfilter], ?_, ?_⟩
  · rw [hrate, hfilter, if_neg (show ¬exThree.length = 0 by decide)]
    norm_num [jsRound, exThree]
  · rw [hpassed, hfilter, hlen]
    norm_num [exThree]

/-- C5 (amended): `fetchQuizHistory`'s rollup satisfies
`totalQuizzes` = attempt count, `averageScore` = integer-rounded mean of the
per-attempt percentages, `passedQuizzes` = count of passed attempts, and
`successRate = Math.round(passedQuizzes/totalQuizzes*100)` — the code rounds
the rate half-up to an integer — with 0 when `totalQuizzes = 0`. -/
theorem fetchQuizHistory_rollup (attempts : List HistAttemptRow)
    (h : ∀ a ∈ attempts, 0 < a.total_questions) :
    (fetchQuizHistory attempts).2.totalQuizzes = attempts.length
    ∧ (fetchQuizHistory attempts).2.averageScore
        = .num (if attempts.length = 0 then 0 else
            ((jsRound ((attempts.map fun a =>
                ((jsRound ((a.score : ℚ) / (a.total_questions : ℚ) * 100) : ℤ) : ℚ)).sum
              / (attempts.length : ℚ)) : ℤ) : ℚ))
    ∧ (fetchQuizHistory attempts).2.passedQuizzes
        = (attempts.filter fun a =>
            decide (70 ≤ jsRound ((a.score : ℚ) / (a.total_questions : ℚ) * 100))).length
    ∧ successRate (fetchQuizHistory attempts).2
        = (if attempts.length = 0 then 0 else
            jsRound ((((attempts.filter fun a =>
                decide (70 ≤ jsRound ((a.score : ℚ) / (a.total_questions : ℚ) * 100))).length : ℚ)
              / (attempts.length : ℚ) * 100))) :=
  fetchQuizHistory_stats_spec attempts h

/-- Witness for C5's amended rollup at the concrete three-attempt list. -/
theorem fetchQuizHistory_rollup_witness :
    (∀ a ∈ exThree, 0 < a.total_questions)
    ∧ (fetchQuizHistory exThree).2.totalQuizzes = exThree.length :=
  ⟨by decide, (fetchQuizHistory_rollup exThree (by decide)).1⟩

/-- The summand `score / total_questions * 100` is finite whenever
`total_questions` is positive. -/
theorem percTerm_num (s t : ℤ) (h : 0 < t) :
    (jsDiv (s : ℚ) (t : ℚ)).mul (.num 100) = .num ((s : ℚ) / (t : ℚ) * 100) := by
  have ht : (t : ℚ) ≠ 0 := Int.cast_ne_zero.mpr (by omega)
  simp [jsDiv, ht, JsNum.mul]

/-- C1: for every quiz whose attempts satisfy the data-model invariant
`total_questions > 0`, `fetchQuizAnalytics` computes `averageScore` as the
arithmetic mean of the raw scores rounded half-up to 1 decimal place, and
`completionRate` as the arithmetic mean of the per-attempt percentages
`score/total_questions*100` rounded half-up to an integer, the two computed
independently; the attempts 8/10 and 6/10 yield `averageScore = 7.0` and
`completionRate = 70`. -/
theorem fetchQuizAnalytics_means :
    (∀ quiz : QuizRow, (∀ a ∈ quiz.quiz_attempts, 0 < a.total_questions) →
      ((fetchQuizAnalytics [quiz]).map fun r => r.averageScore)
          = [((jsRound ((if 0 < quiz.quiz_attempts.length then
                (((quiz.quiz_attempts.map fun a => a.score).sum : ℤ) : ℚ)
                  / (quiz.quiz_attempts.length : ℚ)
              else 0) * 10) : ℤ) : ℚ) / 10]
      ∧ ((fetchQuizAnalytics [quiz]).map fun r => r.completionRate)
          = [.num ((((if 0 < quiz.quiz_attempts.length then
                jsRound ((quiz.quiz_attempts.map fun a =>
                    (a.score : ℚ) / (a.total_questions : ℚ) * 100).sum
                  / (quiz.quiz_attempts.length : ℚ))
              else 0) : ℤ)) : ℚ)])
    ∧ ((fetchQuizAnalytics [exQuiz]).map fun r => (r.averageScore, r.completionRate))
        = [((7 : ℚ), .num 70)] := by
  constructor
  · intro quiz h
    constructor
    · simp only [fetchQuizAnalytics, List.map_cons, List.map_nil, List.cons.injEq, and_true]
      rw [foldl_score_sum quiz.quiz_attempts 0, zero_add]
    · simp only [fetchQuizAnalytics, List.map_cons, List.map_nil, List.cons.injEq, and_true]
      by_cases hn : quiz.quiz_attempts.length = 0
      · rw [if_neg (by omega), if_neg (by omega)]
        norm_num [JsNum.round, jsRound]
      · obtain ⟨k, hk⟩ := Nat.exists_eq_succ_of_ne_zero hn
        rw [if_pos (by omega), if_pos (by omega)]
        rw [foldl_jsAdd_num
          (g := fun a : AnalyticsAttempt =>
            (jsDiv (a.score : ℚ) (a.total_questions : ℚ)).mul (.num 100))
          (f := fun a : AnalyticsAttempt => (a.score : ℚ) / (a.total_questions : ℚ) * 100)
          quiz.quiz_attempts
          (fun a ha => percTerm_num a.score a.total_questions (h a ha)) 0]
        rw [hk]
        simp only [JsNum.divNat, JsNum.round, JsNum.num.injEq, zero_add]
        norm_cast
  · have e8 : jsDiv ((8 : ℤ) : ℚ) ((10 : ℤ) : ℚ) = .num (4 / 5) := by
      norm_num [jsDiv]
    have e6 : jsDiv ((6 : ℤ) : ℚ) ((10 : ℤ) : ℚ) = .num (3 / 5) := by
      norm_num [jsDiv]
    simp only [fetchQuizAnalytics, exQuiz, List.map_cons, List.map_nil, List.foldl_cons,
      List.foldl_nil, List.length_cons, List.length_nil, e8, e6, JsNum.mul, JsNum.add,
      JsNum.divNat, JsNum.round]
    norm_num [jsRound]

/-- Witness for C1 at the spec's concrete two-attempt quiz. -/
theorem fetchQuizAnalytics_means_witness :
    (∀ a ∈ exQuiz.quiz_attempts, 0 < a.total_questions)
    ∧ ((fetchQuizAnalytics [exQuiz]).map fun r => r.averageScore)
        = [((jsRound ((if 0 < exQuiz.quiz_attempts.length then
              (((exQuiz.quiz_attempts.map fun a => a.score).sum : ℤ) : ℚ)
                / (exQuiz.quiz_attempts.length : ℚ)
            else 0) * 10) : ℤ) : ℚ) / 10] :=
  ⟨by decide, (fetchQuizAnalytics_means.1 exQuiz (by decide)).1⟩

/-- C3 (failing input): at the clock value 2025-04-02 12:00 (a Wednesday whose
most recent Sunday, 2025-03-30, lies in the previous month), the source's
`now.setDate(...)` mutation shifts `now` into March before the monthly-growth
loop reads its year/month: the six buckets are Oct 2024 .. Mar 2025
(absolute month indices 24297..24302), the current month Apr 2025 (24303) is
not covered, and a user registered 2025-04-01 — inside the current month and
before the clock value — is counted in no bucket. -/
theorem fetchUserStatistics_monthlyGrowth_missesCurrentMonth :
    ((fetchUserStatistics [aprilUser] nowApr2).monthlyGrowth.map fun b => b.monthIndex)
        = [24297, 24298, 24299, 24300, 24301, 24302]
    ∧ getFullYear nowApr2 * 12 + getMonth nowApr2 = 24303
    ∧ ((fetchUserStatistics [aprilUser] nowApr2).monthlyGrowth.map fun b => b.count)
        = [0, 0, 0, 0, 0, 0]
    ∧ dateYMD (getFullYear nowApr2) (getMonth nowApr2) 1 ≤ aprilUser.created_at
    ∧ aprilUser.created_at ≤ nowApr2 := by
  decide

/-- C4 counterexample: at the clock value 2025-04-02 12:00, the instant
1743292800000 is the midnight start of the most recent Sunday (2025-03-30:
a Sunday, at most 6 days in the past, time-of-day 0), and a user registered
exactly then is NOT counted by `newUsersThisWeek`, because the code's cutoff
keeps the clock's time-of-day (Sunday 12:00) instead of Sunday midnight. -/
theorem newUsersThisWeek_excludes_sunday_morning :
    getDay (1743292800000 : ℤ) = 0
    ∧ todOfMs (1743292800000 : ℤ) = 0
    ∧ (1743292800000 : ℤ) ≤ nowApr2
    ∧ nowApr2 - 1743292800000 < 7 * msPerDay
    ∧ sundayUser.created_at = 1743292800000
    ∧ (fetchUserStatistics [sundayUser] nowApr2).newUsersThisWeek = 0 := by
  decide

/-- C4 (amended): `newUsersThisMonth` counts the records created at or after
the first calendar day of the current month (no upper bound), as claimed;
`newUsersThisWeek` counts the records created at or after the code's week
cutoff `now - getDay(now)` days — the most recent Sunday AT THE CURRENT
TIME-OF-DAY (a Sunday instant, at or before `now`, less than 7 days back,
with the clock's time-of-day), not the start of that Sunday. -/
theorem fetchUserStatistics_windows :
    ∀ (allUsers : List ProfileRow) (now : ℤ),
      (fetchUserStatistics allUsers now).newUsersThisMonth
        = (allUsers.filter fun u =>
            decide (dateYMD (getFullYear now) (getMonth now) 1 ≤ u.created_at)).length
      ∧ (fetchUserStatistics allUsers now).newUsersThisWeek
        = (allUsers.filter fun u =>
            decide (now - msPerDay * getDay now ≤ u.created_at)).length
      ∧ getDay (now - msPerDay * getDay now) = 0
      ∧ todOfMs (now - msPerDay * getDay now) = todOfMs now
      ∧ now - msPerDay * getDay now ≤ now
      ∧ now - (now - msPerDay * getDay now) < 7 * msPerDay := by
  intro allUsers now
  have hw : setDate now (getDate now - getDay now) = now - msPerDay * getDay now := by
    unfold setDate
    ring
  refine ⟨rfl, ?_, ?_, ?_, ?_, ?_⟩
  · simp only [fetchUserStatistics, hw]
  · simp only [getDay, dayOfMs, todOfMs, msPerDay]
    omega
  · simp only [getDay, dayOfMs, todOfMs, msPerDay]
    omega
  · simp only [getDay, dayOfMs, todOfMs, msPerDay]
    omega
  · simp only [getDay, dayOfMs, todOfMs, msPerDay]
    omega

/-- The content comparator is transitive. -/
theorem contentLe_trans (a b c : ContentItem) :
    contentLe a b = true → contentLe b c = true → contentLe a c = true := by
  simp only [contentLe, decide_eq_true_eq]
  omega

/-- The content comparator is total. -/
theorem contentLe_total (a b : ContentItem) :
    (contentLe a b || contentLe b a) = true := by
  simp only [contentLe, Bool.or_eq_true, decide_eq_true_eq]
  omega

/-- Stability of the content sort: the elements carrying any fixed creation
timestamp appear in the sorted output exactly in their input order. -/
theorem mergeSort_filter_key (l : List ContentItem) (k : ℤ) :
    (l.mergeSort contentLe).filter (fun x => decide (x.createdAt = k))
      = l.filter (fun x => decide (x.createdAt = k)) := by
  have hpair : (l.filter (fun x => decide (x.createdAt = k))).Pairwise
      (fun a b => contentLe a b = true) := by
    refine List.pairwise_of_forall_mem_list fun a ha b hb => ?_
    have ha' := (List.mem_filter.mp ha).2
    have hb' := (List.mem_filter.mp hb).2
    simp only [decide_eq_true_eq] at ha' hb'
    simp only [contentLe, decide_eq_true_eq, ha', hb']
    omega
  have hsub : (l.filter (fun x => decide (x.createdAt = k))).Sublist (l.mergeSort contentLe) :=
    List.sublist_mergeSort contentLe_trans contentLe_total hpair (List.filter_sublist l)
  have hsub2 : ((l.filter (fun x => decide (x.createdAt = k))).filter
        (fun x => decide (x.createdAt = k))).Sublist
      ((l.mergeSort contentLe).filter (fun x => decide (x.createdAt = k))) :=
    hsub.filter _
  rw [List.filter_filter] at hsub2
  have hidem : l.filter (fun x => decide (x.createdAt = k) && decide (x.createdAt = k))
      = l.filter (fun x => decide (x.createdAt = k)) := by
    refine List.filter_congr fun x _ => ?_
    exact Bool.and_self _
  rw [hidem] at hsub2
  have hperm : ((l.mergeSort contentLe).filter (fun x => decide (x.createdAt = k))).Perm
      (l.filter (fun x => decide (x.createdAt = k))) :=
    (List.mergeSort_perm l contentLe).filter _
  exact (hsub2.eq_of_length hperm.length_eq.symm).symm

/-- C6: with all four fetches succeeding, the merge of `fetchAllContent`
produces a single list whose length is the sum of the four input lengths,
sorted non-increasing by creation timestamp, and elements with equal
timestamps keep their (stable) input order. -/
theorem fetchAllContent_merge_sorted :
    ∀ books videos courses quizzes : List TableRow,
      fetchAllContent (.resolved (some books)) (.resolved (some videos))
          (.resolved (some courses)) (.resolved (some quizzes))
        = (some (mergeAllContent books videos courses quizzes), false)
      ∧ (mergeAllContent books videos courses quizzes).length
          = books.length + videos.length + courses.length + quizzes.length
      ∧ (mergeAllContent books videos courses quizzes).Pairwise
          (fun x y => y.createdAt ≤ x.createdAt)
      ∧ ∀ k : ℤ, (mergeAllContent books videos courses quizzes).filter
            (fun x => decide (x.createdAt = k))
          = (allContentItems books videos courses quizzes).filter
            (fun x => decide (x.createdAt = k)) := by
  intro books videos courses quizzes
  refine ⟨rfl, ?_, ?_, fun k => mergeSort_filter_key _ k⟩
  · simp only [mergeAllContent, allContentItems, List.length_mergeSort, List.length_append,
      List.length_map]
  · have h := List.sorted_mergeSort contentLe_trans contentLe_total
      (allContentItems books videos courses quizzes)
    refine h.imp fun hab => ?_
    simpa [contentLe] using hab

/-- C7 counterexample: when the books fetch resolves with a query error
(`data = null`) and the other three succeed, the merge proceeds with the empty
books collection AND no error toast is raised (second component `false`) — the
failure is not reported; conversely, when a fetch rejects, the error toast is
raised but no merged content is stored at all (the merge does not proceed). -/
theorem fetchAllContent_softError_silent :
    fetchAllContent (.resolved none) (.resolved (some [])) (.resolved (some []))
        (.resolved (some []))
      = (some (mergeAllContent [] [] [] []), false)
    ∧ fetchAllContent .rejected (.resolved (some [])) (.resolved (some []))
        (.resolved (some []))
      = (none, true) :=
  ⟨rfl, rfl⟩

/-- The rows a fetch outcome contributes to the merge (`data || []`). -/
def FetchOutcome.rows : FetchOutcome → List TableRow
  | .resolved d => d.getD []
  | .rejected => []

/-- C7 (amended): if any of the four sub-fetches rejects, `fetchAllContent`
stores no content (prior state is kept) and shows the error toast; if none
rejects, the merge proceeds — treating a `data = null` query error as an empty
collection — and NO failure is reported. -/
theorem fetchAllContent_failure_handling :
    ∀ b v c q : FetchOutcome,
      ((b = .rejected ∨ v = .rejected ∨ c = .rejected ∨ q = .rejected) →
        fetchAllContent b v c q = (none, true))
      ∧ (b ≠ .rejected → v ≠ .rejected → c ≠ .rejected → q ≠ .rejected →
        fetchAllContent b v c q
          = (some (mergeAllContent b.rows v.rows c.rows q.rows), false)) := by
  intro b v c q
  cases b <;> cases v <;> cases c <;> cases q <;>
    refine ⟨fun h => ?_, fun h1 h2 h3 h4 => ?_⟩ <;>
    first
      | rfl
      | exact absurd rfl h1
      | exact absurd rfl h2
      | exact absurd rfl h3
      | exact absurd rfl h4
      | (rcases h with h | h | h | h <;> exact FetchOutcome.noConfusion h)

/-- Witness for C7's amended handling at one rejected and one clean outcome. -/
theorem fetchAllContent_failure_handling_witness :
    fetchAllContent .rejected (.resolved (some [])) (.resolved (some []))
        (.resolved (some []))
      = (none, true) :=
  (fetchAllContent_failure_handling .rejected (.resolved (some [])) (.resolved (some []))
    (.resolved (some []))).1 (Or.inl rfl)

/-- C8: every aggregator is a pure function of its (explicit) input, the fixed
clock value included: running any of them twice yields identical output. -/
theorem aggregators_pure :
    ∀ (books videos courses quizzes : List TableRow) (users : List ProfileRow) (clock : ℤ)
      (quizRows : List QuizRow) (attempts : List HistAttemptRow),
      mergeAllContent books videos courses quizzes
          = mergeAllContent books videos courses quizzes
      ∧ fetchUserStatistics users clock = fetchUserStatistics users clock
      ∧ fetchQuizAnalytics quizRows = fetchQuizAnalytics quizRows
      ∧ fetchQuizHistory attempts = fetchQuizHistory attempts :=
  fun _ _ _ _ _ _ _ _ => ⟨rfl, rfl, rfl, rfl⟩

/-- C10: `handleSaveEdit` writes exactly the three fields `title`,
`description`, `subject` of the rows matching the edited item's id in the
item's own variant collection: rows with a different id and the other three
collections are untouched, and `created_at`/owner of the matching row are
preserved; and because `handleEdit` initializes an absent description or
subject to the empty string, saving an untouched form for a record whose
description and subject are absent overwrites them with `some ""`. -/
theorem handleSaveEdit_frame :
    (∀ (db : ContentDB) (itemId : String) (form : EditForm),
        (handleSaveEdit db .book itemId form).videos = db.videos
      ∧ (handleSaveEdit db .book itemId form).courses = db.courses
      ∧ (handleSaveEdit db .book itemId form).quizzes = db.quizzes
      ∧ (handleSaveEdit db .video itemId form).books = db.books
      ∧ (handleSaveEdit db .video itemId form).courses = db.courses
      ∧ (handleSaveEdit db .video itemId form).quizzes = db.quizzes
      ∧ (handleSaveEdit db .course itemId form).books = db.books
      ∧ (handleSaveEdit db .course itemId form).videos = db.videos
      ∧ (handleSaveEdit db .course itemId form).quizzes = db.quizzes
      ∧ (handleSaveEdit db .quiz itemId form).books = db.books
      ∧ (handleSaveEdit db .quiz itemId form).videos = db.videos
      ∧ (handleSaveEdit db .quiz itemId form).courses = db.courses)
    ∧ (∀ (form : EditForm) (itemId : String) (rows : List TableRow) (i : ℕ) (r : TableRow),
        rows[i]? = some r →
          (r.id = itemId → (applyUpdate form itemId rows)[i]?
              = some { id := r.id, title := form.title, description := some form.description,
                       subject := some form.subject, created_at := r.created_at,
                       owner := r.owner })
          ∧ (r.id ≠ itemId → (applyUpdate form itemId rows)[i]? = some r))
    ∧ (∀ (item : ContentItem) (rows : List TableRow) (i : ℕ) (r : TableRow),
        rows[i]? = some r → r.id = item.id →
        item.description = none → item.subject = none →
          (applyUpdate (handleEditForm item) item.id rows)[i]?
            = some { id := r.id, title := item.title, description := some "",
                     subject := some "", created_at := r.created_at, owner := r.owner }) := by
  have hpoint : ∀ (form : EditForm) (itemId : String) (rows : List TableRow) (i : ℕ)
      (r : TableRow), rows[i]? = some r →
        (r.id = itemId → (applyUpdate form itemId rows)[i]?
            = some { id := r.id, title := form.title, description := some form.description,
                     subject := some form.subject, created_at := r.created_at,
                     owner := r.owner })
        ∧ (r.id ≠ itemId → (applyUpdate form itemId rows)[i]? = some r) := by
    intro form itemId rows i r hr
    constructor
    · intro hid
      simp [applyUpdate, List.getElem?_map, hr, hid, updateRow]
    · intro hid
      simp [applyUpdate, List.getElem?_map, hr, hid]
  refine ⟨?_, hpoint, ?_⟩
  · intro db itemId form
    exact ⟨rfl, rfl, rfl, rfl, rfl, rfl, rfl, rfl, rfl, rfl, rfl, rfl⟩
  · intro item rows i r hr hid hdesc hsubj
    have h := (hpoint (handleEditForm item) item.id rows i r hr).1 hid
    rw [h]
    simp [handleEditForm, hdesc, hsubj]

/-- Witness for C10's pointwise update at a concrete one-row table. -/
theorem handleSaveEdit_frame_witness :
    ([({ id := "b1", title := "Old", description := none, subject := none,
         created_at := 5, owner := some "u1" } : TableRow)][0]?
        = some ({ id := "b1", title := "Old", description := none, subject := none,
                  created_at := 5, owner := some "u1" } : TableRow))
    ∧ (applyUpdate { title := "New", description := "d", subject := "s" } "b1"
        [({ id := "b1", title := "Old", description := none, subject := none,
            created_at := 5, owner := some "u1" } : TableRow)])[0]?
      = some { id := "b1", title := "New", description := some "d", subject := some "s",
               created_at := 5, owner := some "u1" } := by
  refine ⟨rfl, ?_⟩
  exact (handleSaveEdit_frame.2.1 { title := "New", description := "d", subject := "s" } "b1"
    [{ id := "b1", title := "Old", description := none, subject := none,
       created_at := 5, owner := some "u1" }] 0
    { id := "b1", title := "Old", description := none, subject := none,
      created_at := 5, owner := some "u1" } rfl).1 rfl
